import Mathlib

/-!
Verification of the sqs-to-fhir queue-to-FHIR upload pipeline
(`packages/lambdas/src/sqs-to-fhir.ts`).

The embedding models the handler as a pure function from an environment of
external collaborators (S3, the FHIR server, the clock, JSON parsing) and an
SQS event to a result together with a trace of observable effects
(S3 fetches, bundle parses, batch submissions, metric flushes, error-capture
calls).  JavaScript truthiness and optional chaining are modelled explicitly.
-/

namespace SqsToFhir

/-- Model of a JavaScript value, used for the unchecked `body` argument of
`parseBody` and for the result of `JSON.parse`. -/
inductive JsValue where
  | vNull
  | vUndefined
  | vBool (b : Bool)
  | vNum (n : Int)
  | vStr (s : String)
  | vArr (elems : List JsValue)
  | vObj (fields : List (String × JsValue))

/-- JavaScript truthiness of a value (`NaN` is not modelled). -/
def jsTruthy : JsValue → Bool
  | .vNull => false
  | .vUndefined => false
  | .vBool b => b
  | .vNum n => n != 0
  | .vStr s => s != ""
  | .vArr _ => true
  | .vObj _ => true

/-- JavaScript truthiness of an optional string (`undefined` and `""` are
falsy). -/
def jsTruthyStr : Option String → Bool
  | none => false
  | some s => s != ""

/-- JavaScript `s.startsWith(pre)`. -/
def jsStartsWith (s pre : String) : Bool :=
  pre.data.isPrefixOf s.data

/-- JavaScript property access `v[name]`: throws a `TypeError` on `null` and
`undefined`, yields `undefined` on primitives and arrays, and looks the key up
on objects. -/
def jsGetField : JsValue → String → Except String JsValue
  | .vNull, _ => .error "TypeError"
  | .vUndefined, _ => .error "TypeError"
  | .vObj fields, name => .ok (((fields.lookup name).getD .vUndefined))
  | _, _ => .ok .vUndefined

/-- The two required fields of the queue message body (type `EventBody` in the
source). -/
structure EventBody where
  s3BucketName : String
  s3FileName : String
deriving DecidableEq

/-- `parseBody` from the source: accepts only a (truthy, hence non-empty)
string body, runs it through `JSON.parse` (abstracted as `jsonParse`), and
extracts the `s3BucketName` and `s3FileName` fields, throwing on falsy or
non-string values. -/
def parseBody : JsValue → (String → Except String JsValue) → Except String EventBody
  | .vStr s, jsonParse =>
    if s = "" then .error "Invalid body"
    else
      match jsonParse s with
      | .error e => .error e
      | .ok bodyAsJson =>
        match jsGetField bodyAsJson "s3BucketName" with
        | .error e => .error e
        | .ok s3BucketNameRaw =>
          if jsTruthy s3BucketNameRaw = false then .error "Missing s3BucketName"
          else
            match s3BucketNameRaw with
            | .vStr s3BucketName =>
              match jsGetField bodyAsJson "s3FileName" with
              | .error e => .error e
              | .ok s3FileNameRaw =>
                if jsTruthy s3FileNameRaw = false then .error "Missing s3FileName"
                else
                  match s3FileNameRaw with
                  | .vStr s3FileName => .ok ⟨s3BucketName, s3FileName⟩
                  | _ => .error "Invalid s3FileName"
            | _ => .error "Invalid s3BucketName"
  | _, _ => .error "Invalid body"

/-- A per-entry response inside a FHIR batch-response bundle: an optional
status string. -/
structure EntryResponse where
  status : Option String := none
deriving DecidableEq

/-- One entry of a FHIR bundle; only the optional `response` field matters to
this pipeline. -/
structure BundleEntry where
  response : Option EntryResponse := none
deriving DecidableEq

/-- A FHIR bundle: an optional array of entries. -/
structure FhirBundle where
  entry : Option (List BundleEntry) := none
deriving DecidableEq

/-- The retry ceiling of the application-level retry loop. -/
def maxRetries : Nat := 10

/-- `getErrorsFromReponse` from the source (the typo is the source's):
collects the entries whose optionally-chained
`e.response?.status?.startsWith("2")` is not truthy. -/
def getErrorsFromReponse (response : Option FhirBundle) : List BundleEntry :=
  let entries : List BundleEntry :=
    match response with
    | some r => match r.entry with
      | some es => es
      | none => []
    | none => []
  entries.filter fun e =>
    !(match e.response with
      | some r =>
        match r.status with
        | some s => jsStartsWith s "2"
        | none => false
      | none => false)

/-- A `{duration, timestamp}` metric entry. -/
structure MetricEntry where
  duration : Int
  timestamp : Int
deriving DecidableEq

/-- A `{count, timestamp}` metric entry. -/
structure CountEntry where
  count : Nat
  timestamp : Int
deriving DecidableEq

/-- The per-job metrics record accumulated by the handler. -/
structure Metrics where
  download : Option MetricEntry := none
  upsert : Option MetricEntry := none
  errorCount : Option CountEntry := none
  job : Option MetricEntry := none
deriving DecidableEq

/-- The errors a single record's processing can raise. -/
inductive JobError where
  | missingAttributes
  | missingBody
  | missingCxId
  | missingPatientId
  | bodyError (e : String)
  | s3Error (e : String)
  | bundleParseError (e : String)
  | tooManyErrors (message : String) (count : String) (maxR : String)
deriving DecidableEq

/-- The `MetriportError` the handler rethrows from its catch-all: a message
plus the original cause. -/
structure WrappedError where
  message : String
  cause : JobError
deriving DecidableEq

/-- Observable effects of the handler. -/
inductive Event where
  | captureMessage (msg : String)
  | s3Fetch (bucket : String) (key : String)
  | parseBundle (patientId : String)
  | submitBatch (payload : FhirBundle)
  | reportMetrics (metrics : Metrics)
  | captureError (msg : String)
deriving DecidableEq

/-- The message attributes of one SQS record; each attribute's optionally
chained `stringValue` is modelled as an optional string. -/
structure MessageAttributes where
  cxId : Option String := none
  patientId : Option String := none
  jobId : Option String := none
  startedAt : Option String := none
deriving DecidableEq

/-- One SQS record. -/
structure SqsRecord where
  messageId : String := ""
  messageAttributes : Option MessageAttributes := none
  body : Option String := none
deriving DecidableEq

/-- An SQS event: its `Records` array may be absent. -/
structure SQSEvent where
  Records : Option (List SqsRecord) := none

/-- The environment of external collaborators of the handler.  `clock` is the
stream of values returned by successive `Date.now()` / `new Date()` reads;
`executeBatch` yields, per payload and 1-based attempt number, the FHIR
server's response bundle (network-level retries hidden inside it, as with
`executeWithNetworkRetries` in the source). -/
structure Env where
  lambdaName : String
  clock : Nat → Int
  jsonParse : String → Except String JsValue
  s3Get : String → String → Except String String
  parseRawBundleForFhirServer : String → String → Except String FhirBundle
  executeBatch : FhirBundle → Nat → FhirBundle
  parseDate : String → Int

/-- The application-level retry loop of the handler: submit the whole payload,
stop on a response with no failing entries, otherwise retry while
`count < maxRetries` and throw `Too many errors from FHIR` once the ceiling is
hit.  Returns the final `count` and response together with the trace of
submissions. -/
def upsertLoop (env : Env) (payload : FhirBundle) (count : Nat) :
    Except JobError (Nat × FhirBundle) × List Event :=
  let count' := count + 1
  let response := env.executeBatch payload count'
  let errors := getErrorsFromReponse (some response)
  if errors.length ≤ 0 then
    (.ok (count', response), [.submitBatch payload])
  else if _h : count' < maxRetries then
    let p := upsertLoop env payload count'
    (p.1, .submitBatch payload :: p.2)
  else
    (.error (.tooManyErrors "Too many errors from FHIR" (toString count') (toString maxRetries)),
     [.submitBatch payload])
termination_by maxRetries - count
decreasing_by omega

/-- `processFHIRResponse` from the source: emits an error-level
`capture.message` when the final response still contains failing entries
(logging is not modelled). -/
def processFHIRResponse (response : Option FhirBundle) : List Event :=
  let errors := getErrorsFromReponse response
  if errors.length > 0 then [.captureMessage "Error upserting Bundle on FHIR server"] else []

/-- Processing of one SQS record (the body of the handler's `for` loop):
attribute and body validation, `parseBody`, S3 download, bundle parse, the
retry loop, metrics accumulation and a single metrics flush.  `t` is the index
of the next clock read; the result carries the updated index. -/
def processRecord (env : Env) (t : Nat) (message : SqsRecord) :
    Except JobError Unit × List Event × Nat :=
  match message.messageAttributes with
  | none => (.error .missingAttributes, [], t)
  | some attrib =>
    match message.body with
    | none => (.error .missingBody, [], t)
    | some body =>
      if body = "" then (.error .missingBody, [], t)
      else if jsTruthyStr attrib.cxId = false then (.error .missingCxId, [], t)
      else if jsTruthyStr attrib.patientId = false then (.error .missingPatientId, [], t)
      else
        let patientId := attrib.patientId.getD ""
        match parseBody (.vStr body) env.jsonParse with
        | .error e => (.error (.bodyError e), [], t)
        | .ok eventBody =>
          match env.s3Get eventBody.s3BucketName eventBody.s3FileName with
          | .error e =>
            (.error (.s3Error e), [.s3Fetch eventBody.s3BucketName eventBody.s3FileName], t + 1)
          | .ok payloadRaw =>
            let download : MetricEntry :=
              { duration := env.clock (t + 1) - env.clock t, timestamp := env.clock (t + 2) }
            match env.parseRawBundleForFhirServer payloadRaw patientId with
            | .error e =>
              (.error (.bundleParseError e),
               [.s3Fetch eventBody.s3BucketName eventBody.s3FileName, .parseBundle patientId],
               t + 3)
            | .ok payload =>
              let upsertStart := env.clock (t + 3)
              let loopOut := upsertLoop env payload 0
              match loopOut.1 with
              | .error e =>
                (.error e,
                 .s3Fetch eventBody.s3BucketName eventBody.s3FileName
                   :: .parseBundle patientId :: loopOut.2,
                 t + 4)
              | .ok (count, response) =>
                let errorCount : CountEntry := { count := count, timestamp := env.clock (t + 4) }
                let upsert : MetricEntry :=
                  { duration := env.clock (t + 5) - upsertStart, timestamp := env.clock (t + 6) }
                let jobAndT : Option MetricEntry × Nat :=
                  if jsTruthyStr attrib.startedAt then
                    (some { duration := env.clock (t + 7) - env.parseDate (attrib.startedAt.getD ""),
                            timestamp := env.clock (t + 8) },
                     t + 9)
                  else (none, t + 7)
                let metrics : Metrics :=
                  { download := some download, upsert := some upsert,
                    errorCount := some errorCount, job := jobAndT.1 }
                (.ok (),
                 .s3Fetch eventBody.s3BucketName eventBody.s3FileName
                   :: .parseBundle patientId
                   :: (loopOut.2 ++ (processFHIRResponse (some response) ++ [.reportMetrics metrics])),
                 jobAndT.2)

/-- Sequential processing of the records of one event, stopping at the first
error (the thrown error escapes the `for` loop in the source). -/
def processRecords (env : Env) (t : Nat) :
    List SqsRecord → Except JobError Unit × List Event × Nat
  | [] => (.ok (), [], t)
  | r :: rest =>
    match processRecord env t r with
    | (.ok _, tr, t') =>
      let out := processRecords env t' rest
      (out.1, tr ++ out.2.1, out.2.2)
    | (.error e, tr, t') => (.error e, tr, t')

/-- The notification emitted when one invocation carries more than one record. -/
def gotMoreThanOneMsg : String := "Got more than one message from SQS"

/-- The message of the wrapped error rethrown by the handler's catch-all. -/
def handlerErrorMsg (env : Env) : String := "Error processing event on " ++ env.lambdaName

/-- The lambda handler: discards events with no records, emits a non-fatal
notification when more than one record arrives, processes all records in
order, and on any error performs one `capture.error` call and rethrows a
`MetriportError` wrapping the original cause. -/
def handler (env : Env) (t : Nat) (event : SQSEvent) : Except WrappedError Unit × List Event :=
  match event.Records with
  | none => (.ok (), [])
  | some records =>
    if records.length < 1 then (.ok (), [])
    else
      let warn : List Event :=
        if records.length > 1 then [.captureMessage gotMoreThanOneMsg] else []
      match processRecords env t records with
      | (.ok _, tr, _) => (.ok (), warn ++ tr)
      | (.error e, tr, _) =>
        (.error ⟨handlerErrorMsg env, e⟩, warn ++ tr ++ [.captureError (handlerErrorMsg env)])

/-! Trace observation helpers. -/

/-- Is the event a batch submission? -/
def isSubmitEvent : Event → Bool
  | .submitBatch _ => true
  | _ => false

/-- Is the event an S3 fetch? -/
def isFetchEvent : Event → Bool
  | .s3Fetch _ _ => true
  | _ => false

/-- Is the event a bundle parse? -/
def isParseEvent : Event → Bool
  | .parseBundle _ => true
  | _ => false

/-- Is the event a `capture.error` call? -/
def isCaptureErrorEvent : Event → Bool
  | .captureError _ => true
  | _ => false

/-- Is the event a `capture.message` call? -/
def isCaptureMessageEvent : Event → Bool
  | .captureMessage _ => true
  | _ => false

/-- Number of batch submissions in a trace. -/
def countSubmits (tr : List Event) : Nat := tr.countP isSubmitEvent

/-- The metrics records flushed in a trace, in order. -/
def flushedMetrics (tr : List Event) : List Metrics :=
  tr.filterMap fun e =>
    match e with
    | .reportMetrics m => some m
    | _ => none

/-! Claim-side (specification) definitions, written from the spec's words and
compared against the source-derived definitions above. -/

/-- The entries of a response bundle, in submission order (spec wording:
"the subset of entries, in submission order"). -/
def responseEntries (response : Option FhirBundle) : List BundleEntry :=
  match response with
  | some r => r.entry.getD []
  | none => []

/-- Spec-side failure classification of one entry: failing when the response
object is missing, the status is missing, or the status string does not start
with `"2"`. -/
def specEntryFailing (e : BundleEntry) : Bool :=
  match e.response with
  | none => true
  | some r =>
    match r.status with
    | none => true
    | some s => !(jsStartsWith s "2")

/-- Spec-side predicate of claim C7: the status string is a valid HTTP status
code from 200 to 299, i.e. the decimal numeral of some `n` with
`200 ≤ n ≤ 299`. -/
def specStatusIn2xxRange (s : String) : Bool :=
  (List.range 100).any fun i => s == toString (200 + i)

/-- A concrete environment whose batch responses always contain one failing
entry (used as witness input). -/
def alwaysFailEnv : Env :=
  { lambdaName := "lambda", clock := fun _ => 0, jsonParse := fun _ => .error "x",
    s3Get := fun _ _ => .error "x", parseRawBundleForFhirServer := fun _ _ => .error "x",
    executeBatch := fun _ _ => ⟨some [⟨none⟩]⟩, parseDate := fun _ => 0 }

/-- A concrete environment whose batch responses are always clean and whose
collaborators all succeed (used as witness input). -/
def cleanEnv : Env :=
  { lambdaName := "lambda", clock := fun i => (i : Int),
    jsonParse := fun _ =>
      .ok (.vObj [("s3BucketName", .vStr "bucket1"), ("s3FileName", .vStr "file1")]),
    s3Get := fun _ _ => .ok "raw",
    parseRawBundleForFhirServer := fun _ _ => .ok ⟨some []⟩,
    executeBatch := fun _ _ => ⟨some [⟨some ⟨some "200"⟩⟩]⟩, parseDate := fun _ => 0 }

/-- A concrete record with no message attributes (used as witness input). -/
def noAttribRecord : SqsRecord := { messageId := "m" }

/-- A concrete record that processes successfully (used as witness input). -/
def successRecord : SqsRecord :=
  { messageId := "m1",
    messageAttributes := some
      { cxId := some "cx", patientId := some "pat", startedAt := some "2024-01-01T00:00:00Z" },
    body := some "{}" }

/-- The effect trace of processing `successRecord` in `cleanEnv` from clock
index 0. -/
def successTrace : List Event :=
  [.s3Fetch "bucket1" "file1", .parseBundle "pat", .submitBatch ⟨some []⟩,
   .reportMetrics { download := some ⟨1, 2⟩, upsert := some ⟨2, 6⟩,
                    errorCount := some ⟨1, 4⟩, job := some ⟨7, 8⟩ }]

lemma upsertLoop_events (env : Env) (payload : FhirBundle) :
    ∀ count, ∀ ev ∈ (upsertLoop env payload count).2, ev = .submitBatch payload := by
  have key : ∀ d count, maxRetries - count ≤ d →
      ∀ ev ∈ (upsertLoop env payload count).2, ev = .submitBatch payload := by
    intro d
    induction d with
    | zero =>
      intro count hc ev hev
      rw [upsertLoop] at hev
      split at hev
      · simpa using hev
      · split at hev
        · omega
        · simpa using hev
    | succ d ih =>
      intro count hc ev hev
      rw [upsertLoop] at hev
      split at hev
      · simpa using hev
      · split at hev
        · simp only [List.mem_cons] at hev
          rcases hev with h1 | h2
          · exact h1
          · exact ih (count + 1) (by omega) ev h2
        · simpa using hev
  exact fun count => key (maxRetries - count) count le_rfl

lemma upsertLoop_length (env : Env) (payload : FhirBundle) :
    ∀ d count, maxRetries - count = d → count < maxRetries →
      (upsertLoop env payload count).2.length ≤ maxRetries - count := by
  intro d
  induction d with
  | zero => intro count hc hlt; omega
  | succ d ih =>
    intro count hc hlt
    rw [upsertLoop]
    split
    · simp; omega
    · split
      · rename_i hrec
        have := ih (count + 1) (by omega) hrec
        simp only [List.length_cons]
        omega
      · simp; omega

lemma upsertLoop_ok (env : Env) (payload : FhirBundle) :
    ∀ count n resp tr, upsertLoop env payload count = (.ok (n, resp), tr) →
      getErrorsFromReponse (some resp) = [] ∧ resp = env.executeBatch payload n ∧
      tr.length = n - count ∧ count < n := by
  have key : ∀ d count, maxRetries - count ≤ d → ∀ n resp tr,
      upsertLoop env payload count = (.ok (n, resp), tr) →
      getErrorsFromReponse (some resp) = [] ∧ resp = env.executeBatch payload n ∧
      tr.length = n - count ∧ count < n := by
    intro d
    induction d with
    | zero =>
      intro count hc n resp tr h
      rw [upsertLoop] at h
      split at h
      · rename_i hlen
        obtain ⟨h1, h2⟩ := Prod.mk.injEq _ _ _ _ |>.mp h
        obtain ⟨hn, hresp⟩ : count + 1 = n ∧ env.executeBatch payload (count + 1) = resp := by
          have := Except.ok.inj h1
          exact ⟨congrArg Prod.fst this, congrArg Prod.snd this⟩
        subst hn
        refine ⟨?_, hresp.symm, ?_, by omega⟩
        · rw [← hresp]
          exact List.eq_nil_of_length_eq_zero (by omega)
        · rw [← h2]; simp
      · split at h
        · omega
        · exact absurd h (by simp)
    | succ d ih =>
      intro count hc n resp tr h
      rw [upsertLoop] at h
      split at h
      · rename_i hlen
        obtain ⟨h1, h2⟩ := Prod.mk.injEq _ _ _ _ |>.mp h
        obtain ⟨hn, hresp⟩ : count + 1 = n ∧ env.executeBatch payload (count + 1) = resp := by
          have := Except.ok.inj h1
          exact ⟨congrArg Prod.fst this, congrArg Prod.snd this⟩
        subst hn
        refine ⟨?_, hresp.symm, ?_, by omega⟩
        · rw [← hresp]
          exact List.eq_nil_of_length_eq_zero (by omega)
        · rw [← h2]; simp
      · split at h
        · rename_i hrec
          obtain ⟨h1, h2⟩ := Prod.mk.injEq _ _ _ _ |>.mp h
          have hA : upsertLoop env payload (count + 1) =
              (.ok (n, resp), (upsertLoop env payload (count + 1)).2) := by
            rw [← h1]
          obtain ⟨e1, e2, e3, e4⟩ := ih (count + 1) (by omega) n resp _ hA
          refine ⟨e1, e2, ?_, by omega⟩
          rw [← h2]
          simp only [List.length_cons]
          omega
        · exact absurd h (by simp)
  exact fun count => key (maxRetries - count) count le_rfl

lemma upsertLoop_allFail (env : Env) (payload : FhirBundle)
    (hfail : ∀ k, getErrorsFromReponse (some (env.executeBatch payload k)) ≠ []) :
    ∀ d count, maxRetries - count = d → count < maxRetries →
      upsertLoop env payload count =
        (.error (.tooManyErrors "Too many errors from FHIR"
            (toString maxRetries) (toString maxRetries)),
         List.replicate d (.submitBatch payload)) := by
  intro d
  induction d with
  | zero => intro count hc hlt; omega
  | succ d ih =>
    intro count hc hlt
    rw [upsertLoop]
    split
    · rename_i hlen
      exact absurd (List.eq_nil_of_length_eq_zero (by omega)) (hfail (count + 1))
    · split
      · rename_i hrec
        rw [ih (count + 1) (by omega) hrec]
        simp [List.replicate_succ]
      · rename_i hrec
        have h1 : count + 1 = maxRetries := by omega
        have h2 : d = 0 := by omega
        subst h2
        rw [h1]
        simp [List.replicate_succ]

lemma upsertLoop_firstSuccess (env : Env) (payload : FhirBundle) (n : ℕ)
    (hfail : ∀ k, 0 < k → k < n → getErrorsFromReponse (some (env.executeBatch payload k)) ≠ [])
    (hsucc : getErrorsFromReponse (some (env.executeBatch payload n)) = [])
    (hle : n ≤ maxRetries) :
    ∀ d count, n - count = d → count < n →
      upsertLoop env payload count =
        (.ok (n, env.executeBatch payload n), List.replicate d (.submitBatch payload)) := by
  intro d
  induction d with
  | zero => intro count hc hlt; omega
  | succ d ih =>
    intro count hc hlt
    by_cases hcn : count + 1 = n
    · rw [upsertLoop]
      split
      · have h2 : d = 0 := by omega
        subst h2
        rw [hcn]
        simp [List.replicate_succ]
      · rename_i hlen
        rw [hcn] at hlen
        rw [hsucc] at hlen
        simp at hlen
    · rw [upsertLoop]
      split
      · rename_i hlen
        exact absurd (List.eq_nil_of_length_eq_zero (by omega))
          (hfail (count + 1) (by omega) (by omega))
      · split
        · rw [ih (count + 1) (by omega) (by omega)]
          simp [List.replicate_succ]
        · omega

lemma processFHIRResponse_of_noErrors (response : FhirBundle)
    (h : getErrorsFromReponse (some response) = []) :
    processFHIRResponse (some response) = [] := by
  unfold processFHIRResponse
  rw [h]
  simp

lemma prodEq3 {α β γ : Type _} {a x : α} {b y : β} {c z : γ}
    (h : (a, b, c) = (x, y, z)) : a = x ∧ b = y ∧ c = z := by
  obtain ⟨h1, h2⟩ := Prod.mk.injEq _ _ _ _ |>.mp h
  obtain ⟨h3, h4⟩ := Prod.mk.injEq _ _ _ _ |>.mp h2
  exact ⟨h1, h3, h4⟩

lemma processRecord_shape (env : Env) (t : Nat) (r : SqsRecord) (res : Except JobError Unit)
    (tr : List Event) (t' : Nat) (h : processRecord env t r = (res, tr, t')) :
    (tr = [] ∧ ∃ e, res = .error e) ∨
    (∃ b k e, tr = [.s3Fetch b k] ∧ res = .error e) ∨
    (∃ b k pid e, tr = [.s3Fetch b k, .parseBundle pid] ∧ res = .error e) ∨
    (∃ b k pid payloadRaw payload e,
      env.s3Get b k = .ok payloadRaw ∧
      env.parseRawBundleForFhirServer payloadRaw pid = .ok payload ∧
      (upsertLoop env payload 0).1 = .error e ∧ res = .error e ∧
      tr = .s3Fetch b k :: .parseBundle pid :: (upsertLoop env payload 0).2) ∨
    (∃ b k pid payloadRaw payload n resp attrib m,
      r.messageAttributes = some attrib ∧
      env.s3Get b k = .ok payloadRaw ∧
      env.parseRawBundleForFhirServer payloadRaw pid = .ok payload ∧
      (upsertLoop env payload 0).1 = .ok (n, resp) ∧ res = .ok () ∧
      tr = .s3Fetch b k :: .parseBundle pid ::
        ((upsertLoop env payload 0).2 ++ [.reportMetrics m]) ∧
      m.download.isSome = true ∧
      m.upsert = some ⟨env.clock (t + 5) - env.clock (t + 3), env.clock (t + 6)⟩ ∧
      m.errorCount = some ⟨n, env.clock (t + 4)⟩ ∧
      m.job.isSome = jsTruthyStr attrib.startedAt) := by
  unfold processRecord at h
  cases hma : r.messageAttributes with
  | none =>
    simp only [hma] at h
    obtain ⟨rfl, rfl, rfl⟩ := prodEq3 h
    exact Or.inl ⟨rfl, _, rfl⟩
  | some attrib =>
    simp only [hma] at h
    cases hbody : r.body with
    | none =>
      simp only [hbody] at h
      obtain ⟨rfl, rfl, rfl⟩ := prodEq3 h
      exact Or.inl ⟨rfl, _, rfl⟩
    | some body =>
      simp only [hbody] at h
      by_cases hb : body = ""
      · rw [if_pos hb] at h
        obtain ⟨rfl, rfl, rfl⟩ := prodEq3 h
        exact Or.inl ⟨rfl, _, rfl⟩
      · rw [if_neg hb] at h
        by_cases hcx : jsTruthyStr attrib.cxId = false
        · rw [if_pos hcx] at h
          obtain ⟨rfl, rfl, rfl⟩ := prodEq3 h
          exact Or.inl ⟨rfl, _, rfl⟩
        · rw [if_neg hcx] at h
          by_cases hpat : jsTruthyStr attrib.patientId = false
          · rw [if_pos hpat] at h
            obtain ⟨rfl, rfl, rfl⟩ := prodEq3 h
            exact Or.inl ⟨rfl, _, rfl⟩
          · rw [if_neg hpat] at h
            cases hpb : parseBody (.vStr body) env.jsonParse with
            | error e =>
              simp only [hpb] at h
              obtain ⟨rfl, rfl, rfl⟩ := prodEq3 h
              exact Or.inl ⟨rfl, _, rfl⟩
            | ok eventBody =>
              simp only [hpb] at h
              cases hs3 : env.s3Get eventBody.s3BucketName eventBody.s3FileName with
              | error e =>
                simp only [hs3] at h
                obtain ⟨rfl, rfl, rfl⟩ := prodEq3 h
                exact Or.inr (Or.inl ⟨_, _, _, rfl, rfl⟩)
              | ok payloadRaw =>
                simp only [hs3] at h
                cases hraw : env.parseRawBundleForFhirServer payloadRaw (attrib.patientId.getD "") with
                | error e =>
                  simp only [hraw] at h
                  obtain ⟨rfl, rfl, rfl⟩ := prodEq3 h
                  exact Or.inr (Or.inr (Or.inl ⟨_, _, _, _, rfl, rfl⟩))
                | ok payload =>
                  simp only [hraw] at h
                  cases hloop : (upsertLoop env payload 0).1 with
                  | error e =>
                    simp only [hloop] at h
                    obtain ⟨rfl, rfl, rfl⟩ := prodEq3 h
                    exact Or.inr (Or.inr (Or.inr (Or.inl
                      ⟨_, _, _, payloadRaw, payload, e, hs3, hraw, hloop, rfl, rfl⟩)))
                  | ok pr =>
                    obtain ⟨count, response⟩ := pr
                    simp only [hloop] at h
                    have hnil : processFHIRResponse (some response) = [] :=
                      processFHIRResponse_of_noErrors response
                        (upsertLoop_ok env payload 0 count response _ (by rw [← hloop])).1
                    rw [hnil] at h
                    by_cases hs : jsTruthyStr attrib.startedAt = true
                    · rw [if_pos hs] at h
                      obtain ⟨rfl, rfl, rfl⟩ := prodEq3 h
                      exact Or.inr (Or.inr (Or.inr (Or.inr
                        ⟨_, _, _, payloadRaw, payload, count, response, attrib, _, rfl, hs3,
                         hraw, hloop, rfl, rfl, rfl, rfl, rfl, hs.symm⟩)))
                    · rw [if_neg hs] at h
                      obtain ⟨rfl, rfl, rfl⟩ := prodEq3 h
                      refine Or.inr (Or.inr (Or.inr (Or.inr
                        ⟨_, _, _, payloadRaw, payload, count, response, attrib, _, rfl, hs3,
                         hraw, hloop, rfl, rfl, rfl, rfl, rfl, ?_⟩)))
                      simp only [Bool.not_eq_true] at hs
                      rw [hs]
                      rfl

lemma upsertLoop_countP_zero (env : Env) (payload : FhirBundle) (count : Nat)
    (pred : Event → Bool) (hpred : ∀ p, pred (.submitBatch p) = false) :
    (upsertLoop env payload count).2.countP pred = 0 := by
  rw [List.countP_eq_zero]
  intro ev hev
  rw [upsertLoop_events env payload count ev hev, hpred]
  simp

lemma upsertLoop_countP_submits (env : Env) (payload : FhirBundle) (count : Nat) :
    (upsertLoop env payload count).2.countP isSubmitEvent =
      (upsertLoop env payload count).2.length := by
  rw [List.countP_eq_length]
  intro ev hev
  rw [upsertLoop_events env payload count ev hev]
  rfl

lemma upsertLoop_filterMap_metrics (env : Env) (payload : FhirBundle) (count : Nat) :
    ((upsertLoop env payload count).2.filterMap fun e =>
      match e with
      | .reportMetrics m => some m
      | _ => none) = [] := by
  rw [List.filterMap_eq_nil_iff]
  intro ev hev
  rw [upsertLoop_events env payload count ev hev]

lemma processRecord_countP_zero (env : Env) (t : Nat) (r : SqsRecord) (pred : Event → Bool)
    (hf : ∀ b k, pred (.s3Fetch b k) = false) (hp : ∀ p, pred (.parseBundle p) = false)
    (hs : ∀ p, pred (.submitBatch p) = false) (hm : ∀ m, pred (.reportMetrics m) = false) :
    (processRecord env t r).2.1.countP pred = 0 := by
  rcases hpr : processRecord env t r with ⟨res, tr, t2⟩
  rcases processRecord_shape env t r res tr t2 hpr with
    ⟨rfl, -⟩ | ⟨b, k, e, rfl, -⟩ | ⟨b, k, pid, e, rfl, -⟩ |
    ⟨b, k, pid, praw, payload, e, -, -, -, -, rfl⟩ |
    ⟨b, k, pid, praw, payload, n, resp, attrib, m, -, -, -, -, -, rfl, -⟩
  · rfl
  · simp [List.countP_cons, hf]
  · simp [List.countP_cons, hf, hp]
  · simp [List.countP_cons, hf, hp, upsertLoop_countP_zero env payload 0 pred hs]
  · simp [List.countP_cons, List.countP_append, hf, hp, hm,
      upsertLoop_countP_zero env payload 0 pred hs]

lemma processRecords_countP_zero (env : Env) (pred : Event → Bool)
    (hf : ∀ b k, pred (.s3Fetch b k) = false) (hp : ∀ p, pred (.parseBundle p) = false)
    (hs : ∀ p, pred (.submitBatch p) = false) (hm : ∀ m, pred (.reportMetrics m) = false) :
    ∀ (records : List SqsRecord) (t : Nat),
      (processRecords env t records).2.1.countP pred = 0 := by
  intro records
  induction records with
  | nil => intro t; rfl
  | cons r rest ih =>
    intro t
    show (processRecords env t (r :: rest)).2.1.countP pred = 0
    unfold processRecords
    rcases hpr : processRecord env t r with ⟨res, tr, t2⟩
    have htr : tr.countP pred = 0 := by
      have := processRecord_countP_zero env t r pred hf hp hs hm
      rw [hpr] at this
      exact this
    cases res with
    | ok u =>
      simp only
      rw [List.countP_append, htr, ih t2]
    | error e =>
      simp only
      exact htr

lemma getErrors_eq_filter (response : Option FhirBundle) :
    getErrorsFromReponse response = (responseEntries response).filter specEntryFailing := by
  rcases response with _ | ⟨_ | es⟩
  · rfl
  · rfl
  · show List.filter _ es = List.filter _ es
    exact List.filter_congr fun e _ => by
      rcases e with ⟨_ | ⟨_ | s⟩⟩ <;> rfl

/-- Claim C1: for a job whose submission responses always contain at least one
failing entry, the loop submits exactly 10 times and raises the fatal
`Too many errors from FHIR` error carrying `count=10, maxRetries=10`; and the
number of submissions never exceeds the ceiling of 10. -/
theorem retry_ceiling_ten :
    (∀ (env : Env) (payload : FhirBundle),
      (∀ k, getErrorsFromReponse (some (env.executeBatch payload k)) ≠ []) →
      upsertLoop env payload 0 =
        (.error (.tooManyErrors "Too many errors from FHIR" "10" "10"),
         List.replicate 10 (.submitBatch payload))) ∧
    (∀ (env : Env) (payload : FhirBundle),
      countSubmits (upsertLoop env payload 0).2 ≤ 10) := by
  constructor
  · intro env payload hfail
    exact upsertLoop_allFail env payload hfail 10 0 rfl (by decide)
  · intro env payload
    have h1 := @List.countP_le_length Event isSubmitEvent (upsertLoop env payload 0).2
    have h2 := upsertLoop_length env payload (maxRetries - 0) 0 rfl (by decide)
    have h3 : maxRetries - 0 ≤ 10 := by decide
    unfold countSubmits
    omega

/-- Witness for C1 at a concrete environment whose responses always contain a
failing entry. -/
theorem retry_ceiling_ten_witness :
    (∀ k, getErrorsFromReponse (some (alwaysFailEnv.executeBatch ⟨some []⟩ k)) ≠ []) ∧
    upsertLoop alwaysFailEnv ⟨some []⟩ 0 =
      (.error (.tooManyErrors "Too many errors from FHIR" "10" "10"),
       List.replicate 10 (.submitBatch ⟨some []⟩)) :=
  ⟨fun _ => by show getErrorsFromReponse (some ⟨some [⟨none⟩]⟩) ≠ []; decide,
   retry_ceiling_ten.1 alwaysFailEnv ⟨some []⟩
     (fun _ => by show getErrorsFromReponse (some ⟨some [⟨none⟩]⟩) ≠ []; decide)⟩

/-- Claim C4: the loop exits successfully at the first submission (the `n`-th, within
the ceiling) whose response has zero failing entries, no matter how many prior
attempts failed, and makes exactly `n` submissions. -/
theorem loop_stops_at_first_success (env : Env) (payload : FhirBundle) (n : ℕ)
    (hn : 0 < n) (hle : n ≤ maxRetries)
    (hfail : ∀ k, 0 < k → k < n → getErrorsFromReponse (some (env.executeBatch payload k)) ≠ [])
    (hsucc : getErrorsFromReponse (some (env.executeBatch payload n)) = []) :
    upsertLoop env payload 0 =
      (.ok (n, env.executeBatch payload n), List.replicate n (.submitBatch payload)) :=
  upsertLoop_firstSuccess env payload n hfail hsucc hle n 0 (by omega) hn

/-- Witness for C4 at a concrete environment whose first response is clean. -/
theorem loop_stops_at_first_success_witness :
    (0 < 1) ∧ (1 ≤ maxRetries) ∧
    getErrorsFromReponse (some (cleanEnv.executeBatch ⟨some []⟩ 1)) = [] ∧
    upsertLoop cleanEnv ⟨some []⟩ 0 =
      (.ok (1, cleanEnv.executeBatch ⟨some []⟩ 1), List.replicate 1 (.submitBatch ⟨some []⟩)) :=
  ⟨by decide, by decide, by decide,
   loop_stops_at_first_success cleanEnv ⟨some []⟩ 1 (by decide) (by decide)
     (fun k h1 h2 => absurd h2 (by omega))
     (by decide)⟩

/-- Claim C2: the error evaluator returns exactly the entries, in submission order,
that the spec classifies as failing (missing response, missing status, or a
status string not starting with "2"); an absent response bundle yields no
entries. -/
theorem evaluator_returns_failing_subset :
    (∀ response : Option FhirBundle,
      getErrorsFromReponse response = (responseEntries response).filter specEntryFailing) ∧
    getErrorsFromReponse none = [] :=
  ⟨getErrors_eq_filter, rfl⟩

/-- Claim C7 (amended): an entry of a response bundle is classified a success (kept
out of the failure list) precisely when it has a response object whose status
string starts with the character "2" - not precisely the valid HTTP codes 200
to 299. -/
theorem entry_success_iff_starts_with_two (response : Option FhirBundle) (e : BundleEntry)
    (he : e ∈ responseEntries response) :
    e ∉ getErrorsFromReponse response ↔
      ∃ r s, e.response = some r ∧ r.status = some s ∧ jsStartsWith s "2" = true := by
  rw [getErrors_eq_filter, List.mem_filter]
  rcases e with ⟨_ | ⟨_ | s⟩⟩
  · simp [specEntryFailing, he]
  · simp [specEntryFailing, he]
  · simp [specEntryFailing, he]

/-- Witness for C7's amended classification at a concrete entry. -/
theorem entry_success_iff_starts_with_two_witness :
    ((⟨some ⟨some "200"⟩⟩ : BundleEntry) ∈
      responseEntries (some ⟨some [⟨some ⟨some "200"⟩⟩]⟩)) ∧
    ((⟨some ⟨some "200"⟩⟩ : BundleEntry) ∉
        getErrorsFromReponse (some ⟨some [⟨some ⟨some "200"⟩⟩]⟩) ↔
      ∃ r s, (⟨some ⟨some "200"⟩⟩ : BundleEntry).response = some r ∧
        r.status = some s ∧ jsStartsWith s "2" = true) :=
  ⟨by decide,
   entry_success_iff_starts_with_two (some ⟨some [⟨some ⟨some "200"⟩⟩]⟩) ⟨some ⟨some "200"⟩⟩
     (by decide)⟩

/-- Claim C7 counterexample: the claim's "2xx range (a valid HTTP status code from
200 to 299)" classification is false on the code: the entry with status "2" is
kept out of the failure list although "2" is not a valid status code from 200
to 299. -/
theorem entry_success_not_iff_2xx_range :
    ¬ (∀ (response : Option FhirBundle) (e : BundleEntry),
        e ∈ responseEntries response →
        (e ∉ getErrorsFromReponse response ↔
          ∃ r s, e.response = some r ∧ r.status = some s ∧ specStatusIn2xxRange s = true)) := by
  intro hcl
  have h := (hcl (some ⟨some [⟨some ⟨some "2"⟩⟩]⟩) ⟨some ⟨some "2"⟩⟩ (by decide)).mp (by decide)
  obtain ⟨r, s, hr, hs, h2⟩ := h
  cases hr
  cases hs
  exact absurd h2 (by decide)

/-- Claim C10: an event with an absent or empty `Records` array makes the handler
return normally with an empty effect trace - no fetch, submission, metrics
flush or capture call, and no error. -/
theorem no_records_no_effects (env : Env) (t : Nat) :
    handler env t ⟨none⟩ = (.ok (), []) ∧ handler env t ⟨some []⟩ = (.ok (), []) :=
  ⟨rfl, rfl⟩

lemma isCaptureErrorEvent_false :
    (∀ b k, isCaptureErrorEvent (.s3Fetch b k) = false) ∧
    (∀ p, isCaptureErrorEvent (.parseBundle p) = false) ∧
    (∀ p, isCaptureErrorEvent (.submitBatch p) = false) ∧
    (∀ m, isCaptureErrorEvent (.reportMetrics m) = false) :=
  ⟨fun _ _ => rfl, fun _ => rfl, fun _ => rfl, fun _ => rfl⟩

lemma isCaptureMessageEvent_false :
    (∀ b k, isCaptureMessageEvent (.s3Fetch b k) = false) ∧
    (∀ p, isCaptureMessageEvent (.parseBundle p) = false) ∧
    (∀ p, isCaptureMessageEvent (.submitBatch p) = false) ∧
    (∀ m, isCaptureMessageEvent (.reportMetrics m) = false) :=
  ⟨fun _ _ => rfl, fun _ => rfl, fun _ => rfl, fun _ => rfl⟩

/-- Claim C3: on a job-level fatal error the handler makes exactly one error-capture
call and returns the single wrapped error whose `cause` is the error raised by
record processing; and a record that fails fatally flushes no metrics. -/
theorem fatal_error_single_capture :
    (∀ (env : Env) (t : Nat) (event : SQSEvent) (w : WrappedError) (tr : List Event),
      handler env t event = (.error w, tr) →
      tr.countP isCaptureErrorEvent = 1 ∧
      w.message = handlerErrorMsg env ∧
      ∃ records tr₀ t', event.Records = some records ∧
        processRecords env t records = (.error w.cause, tr₀, t')) ∧
    (∀ (env : Env) (t : Nat) (r : SqsRecord) (e : JobError) (tr : List Event) (t' : Nat),
      processRecord env t r = (.error e, tr, t') → flushedMetrics tr = []) := by
  constructor
  · intro env t event w tr h
    unfold handler at h
    rcases event with ⟨_ | records⟩
    · exact absurd h (by simp)
    · simp only at h
      by_cases hlen : records.length < 1
      · rw [if_pos hlen] at h
        exact absurd h (by simp)
      · rw [if_neg hlen] at h
        rcases hpr : processRecords env t records with ⟨res, tr0, t0⟩
        rw [hpr] at h
        cases res with
        | ok u => exact absurd h (by simp)
        | error e =>
          simp only at h
          obtain ⟨hw, htr⟩ := Prod.mk.injEq _ _ _ _ |>.mp h
          obtain rfl := Except.error.inj hw
          refine ⟨?_, rfl, records, tr0, t0, rfl, hpr⟩
          rw [← htr]
          have hz : tr0.countP isCaptureErrorEvent = 0 := by
            have := processRecords_countP_zero env isCaptureErrorEvent
              isCaptureErrorEvent_false.1 isCaptureErrorEvent_false.2.1
              isCaptureErrorEvent_false.2.2.1 isCaptureErrorEvent_false.2.2.2 records t
            rw [hpr] at this
            exact this
          by_cases hl : records.length > 1
          · rw [if_pos hl]
            simp [List.countP_append, List.countP_cons, hz, isCaptureErrorEvent]
          · rw [if_neg hl]
            simp [List.countP_append, List.countP_cons, hz, isCaptureErrorEvent]
  · intro env t r e tr t' h
    rcases processRecord_shape env t r (.error e) tr t' h with
      ⟨rfl, -⟩ | ⟨b, k, e', rfl, -⟩ | ⟨b, k, pid, e', rfl, -⟩ |
      ⟨b, k, pid, praw, payload, e', -, -, -, -, rfl⟩ |
      ⟨b, k, pid, praw, payload, n, resp, attrib, m, -, -, -, -, hok, -⟩
    · rfl
    · rfl
    · rfl
    · show flushedMetrics (_ :: _ :: (upsertLoop env payload 0).2) = []
      unfold flushedMetrics
      simp only [List.filterMap_cons]
      exact upsertLoop_filterMap_metrics env payload 0
    · exact absurd hok (by simp)

/-- Claim C8: when an invocation carries more than one record, the handler emits
exactly one `capture.message` notification and still processes the whole
record list in order, with the same result processing them yields; the
notification itself aborts nothing. -/
theorem multi_record_notification (env : Env) (t : Nat) (records : List SqsRecord)
    (res : Except JobError Unit) (tr : List Event) (t' : Nat)
    (hlen : 1 < records.length)
    (hpr : processRecords env t records = (res, tr, t')) :
    (handler env t ⟨some records⟩).2.countP isCaptureMessageEvent = 1 ∧
    (∀ u, res = .ok u → handler env t ⟨some records⟩ =
        (.ok (), .captureMessage gotMoreThanOneMsg :: tr)) ∧
    (∀ e, res = .error e → handler env t ⟨some records⟩ =
        (.error ⟨handlerErrorMsg env, e⟩,
         .captureMessage gotMoreThanOneMsg :: (tr ++ [.captureError (handlerErrorMsg env)]))) := by
  have hnot : ¬ records.length < 1 := by omega
  have h2 : records.length > 1 := hlen
  have hz : tr.countP isCaptureMessageEvent = 0 := by
    have := processRecords_countP_zero env isCaptureMessageEvent
      isCaptureMessageEvent_false.1 isCaptureMessageEvent_false.2.1
      isCaptureMessageEvent_false.2.2.1 isCaptureMessageEvent_false.2.2.2 records t
    rw [hpr] at this
    exact this
  have hok : ∀ u, res = .ok u → handler env t ⟨some records⟩ =
      (.ok (), .captureMessage gotMoreThanOneMsg :: tr) := by
    intro u hres
    subst hres
    unfold handler
    simp only
    rw [if_neg hnot, hpr, if_pos h2]
    rfl
  have herr : ∀ e, res = .error e → handler env t ⟨some records⟩ =
      (.error ⟨handlerErrorMsg env, e⟩,
       .captureMessage gotMoreThanOneMsg :: (tr ++ [.captureError (handlerErrorMsg env)])) := by
    intro e hres
    subst hres
    unfold handler
    simp only
    rw [if_neg hnot, hpr, if_pos h2]
    rfl
  refine ⟨?_, hok, herr⟩
  cases res with
  | ok u =>
    rw [hok u rfl]
    simp [List.countP_cons, hz, isCaptureMessageEvent]
  | error e =>
    rw [herr e rfl]
    simp [List.countP_cons, List.countP_append, hz, isCaptureMessageEvent]

/-- Claim C9: a record's trace never contains more than one fetch or parse; and
whenever at least one batch submission happens, the trace starts with exactly
one fetch followed by exactly one parse, and every submission in the remainder
submits the very bundle produced by that single parse of the fetched content. -/
theorem single_fetch_single_parse_same_bundle (env : Env) (t : Nat) (r : SqsRecord)
    (res : Except JobError Unit) (tr : List Event) (t' : Nat)
    (h : processRecord env t r = (res, tr, t')) :
    tr.countP isFetchEvent ≤ 1 ∧ tr.countP isParseEvent ≤ 1 ∧
    (0 < countSubmits tr →
      ∃ b k pid payloadRaw payload rest,
        env.s3Get b k = .ok payloadRaw ∧
        env.parseRawBundleForFhirServer payloadRaw pid = .ok payload ∧
        tr = .s3Fetch b k :: .parseBundle pid :: rest ∧
        rest.countP isFetchEvent = 0 ∧ rest.countP isParseEvent = 0 ∧
        (∀ ev ∈ rest, isSubmitEvent ev = true → ev = .submitBatch payload)) := by
  have hfetch : ∀ p, isFetchEvent (Event.submitBatch p) = false := fun _ => rfl
  have hparse : ∀ p, isParseEvent (Event.submitBatch p) = false := fun _ => rfl
  rcases processRecord_shape env t r res tr t' h with
    ⟨rfl, -⟩ | ⟨b, k, e, rfl, -⟩ | ⟨b, k, pid, e, rfl, -⟩ |
    ⟨b, k, pid, praw, payload, e, hs3, hraw, -, -, rfl⟩ |
    ⟨b, k, pid, praw, payload, n, resp, attrib, m, -, hs3, hraw, -, -, rfl, -⟩
  · exact ⟨by simp, by simp, fun h0 => absurd h0 (by simp [countSubmits])⟩
  · exact ⟨by simp [List.countP_cons, isFetchEvent], by simp [List.countP_cons, isParseEvent],
      fun h0 => absurd h0 (by simp [countSubmits, List.countP_cons, isSubmitEvent])⟩
  · exact ⟨by simp [List.countP_cons, isFetchEvent, isParseEvent],
      by simp [List.countP_cons, isFetchEvent, isParseEvent],
      fun h0 => absurd h0 (by simp [countSubmits, List.countP_cons, isSubmitEvent])⟩
  · have hzf := upsertLoop_countP_zero env payload 0 isFetchEvent hfetch
    have hzp := upsertLoop_countP_zero env payload 0 isParseEvent hparse
    refine ⟨?_, ?_, fun _ => ⟨b, k, pid, praw, payload, _, hs3, hraw, rfl, hzf, hzp, ?_⟩⟩
    · simp [List.countP_cons, isFetchEvent, isParseEvent, hzf]
    · simp [List.countP_cons, isFetchEvent, isParseEvent, hzp]
    · intro ev hev _
      exact upsertLoop_events env payload 0 ev hev
  · have hzf := upsertLoop_countP_zero env payload 0 isFetchEvent hfetch
    have hzp := upsertLoop_countP_zero env payload 0 isParseEvent hparse
    refine ⟨?_, ?_, fun _ => ⟨b, k, pid, praw, payload, _, hs3, hraw, rfl, ?_, ?_, ?_⟩⟩
    · simp [List.countP_cons, List.countP_append, isFetchEvent, isParseEvent, hzf]
    · simp [List.countP_cons, List.countP_append, isFetchEvent, isParseEvent, hzp]
    · simp [List.countP_append, List.countP_cons, hzf, isFetchEvent]
    · simp [List.countP_append, List.countP_cons, hzp, isParseEvent]
    · intro ev hev hsub
      rcases List.mem_append.mp hev with h1 | h2
      · exact upsertLoop_events env payload 0 ev h1
      · simp only [List.mem_singleton] at h2
        subst h2
        exact absurd hsub (by simp [isSubmitEvent])

/-- Claim C5 (amended): after a successfully processed record the flushed metrics
record is flushed exactly once and carries a `download` entry, a single
`upsert` entry covering all submission attempts combined — its duration runs
from the clock read taken before the first submission (index `t + 3`, the
source's `upsertStart`) to the read taken after the retry loop has finished
(index `t + 5`), not per attempt — an `errorCount.count` equal to the number
of batch submissions made, and a `job` entry exactly when the message carried
a `startedAt` attribute with a non-empty string value. -/
theorem success_metrics (env : Env) (t : Nat) (r : SqsRecord) (attrib : MessageAttributes)
    (tr : List Event) (t' : Nat)
    (h : processRecord env t r = (.ok (), tr, t'))
    (ha : r.messageAttributes = some attrib) :
    ∃ m, flushedMetrics tr = [m] ∧
      m.download.isSome = true ∧
      m.upsert = some ⟨env.clock (t + 5) - env.clock (t + 3), env.clock (t + 6)⟩ ∧
      (∃ c, m.errorCount = some c ∧ c.count = countSubmits tr) ∧
      m.job.isSome = jsTruthyStr attrib.startedAt := by
  rcases processRecord_shape env t r (.ok ()) tr t' h with
    ⟨-, e, he⟩ | ⟨b, k, e, -, he⟩ | ⟨b, k, pid, e, -, he⟩ |
    ⟨b, k, pid, praw, payload, e, -, -, -, he, -⟩ |
    ⟨b, k, pid, praw, payload, n, resp, attrib', m, ha', -, -, hloop, -, rfl, hdl, hup, hec,
     hjob⟩
  · exact absurd he (by simp)
  · exact absurd he (by simp)
  · exact absurd he (by simp)
  · exact absurd he (by simp)
  · obtain rfl : attrib' = attrib := by
      rw [ha] at ha'
      exact (Option.some.inj ha').symm
    have hok := upsertLoop_ok env payload 0 n resp _ (by rw [← hloop])
    refine ⟨m, ?_, hdl, hup, ⟨⟨n, env.clock (t + 4)⟩, hec, ?_⟩, hjob⟩
    · unfold flushedMetrics
      simp only [List.filterMap_cons, List.filterMap_append]
      rw [upsertLoop_filterMap_metrics env payload 0]
      rfl
    · show n = countSubmits _
      unfold countSubmits
      simp only [List.countP_cons, List.countP_append,
        upsertLoop_countP_submits env payload 0]
      have h1 : (upsertLoop env payload 0).2.length = n - 0 := hok.2.2.1
      have h2 : 0 < n := hok.2.2.2
      simp [isSubmitEvent]
      omega

/-- Claim C5 counterexample: the claim's "a `job` duration entry if and only if the
queue message carried a `startedAt` attribute" is false on the code: a message
whose `startedAt` attribute carries the empty string is processed successfully
and its flushed metrics record has no `job` entry. -/
theorem job_metric_not_iff_startedAt_carried :
    ¬ (∀ (env : Env) (t : Nat) (r : SqsRecord) (attrib : MessageAttributes)
         (tr : List Event) (t' : Nat),
        processRecord env t r = (.ok (), tr, t') →
        r.messageAttributes = some attrib →
        ∀ m ∈ flushedMetrics tr, (m.job.isSome = true ↔ attrib.startedAt.isSome = true)) := by
  intro hcl
  have heval : processRecord cleanEnv 0
      { messageId := "m",
        messageAttributes := some
          { cxId := some "cx", patientId := some "pat", startedAt := some "" },
        body := some "{}" } =
      (.ok (),
       [.s3Fetch "bucket1" "file1", .parseBundle "pat", .submitBatch ⟨some []⟩,
        .reportMetrics { download := some ⟨1, 2⟩, upsert := some ⟨2, 6⟩,
                         errorCount := some ⟨1, 4⟩, job := none }],
       7) := by
    simp [processRecord, cleanEnv, jsTruthyStr, parseBody, jsGetField, jsTruthy,
      upsertLoop, maxRetries, getErrorsFromReponse, jsStartsWith, processFHIRResponse,
      List.lookup, Option.getD]
  have hiff := hcl cleanEnv 0 _ _ _ _ heval rfl
    { download := some ⟨1, 2⟩, upsert := some ⟨2, 6⟩,
      errorCount := some ⟨1, 4⟩, job := none } (by decide)
  have := hiff.mpr rfl
  exact absurd this (by decide)

lemma processRecord_successRecord :
    processRecord cleanEnv 0 successRecord = (.ok (), successTrace, 9) := by
  simp [processRecord, cleanEnv, successRecord, successTrace, jsTruthyStr, parseBody,
    jsGetField, jsTruthy, upsertLoop, maxRetries, getErrorsFromReponse, jsStartsWith,
    processFHIRResponse, List.lookup, Option.getD]

/-- Witness for C3 at a concrete record whose message attributes are missing. -/
theorem fatal_error_single_capture_witness :
    (handler cleanEnv 0 ⟨some [noAttribRecord]⟩ =
      (.error ⟨handlerErrorMsg cleanEnv, .missingAttributes⟩,
       [.captureError (handlerErrorMsg cleanEnv)])) ∧
    (([Event.captureError (handlerErrorMsg cleanEnv)]).countP isCaptureErrorEvent = 1 ∧
      (⟨handlerErrorMsg cleanEnv, JobError.missingAttributes⟩ : WrappedError).message =
        handlerErrorMsg cleanEnv ∧
      ∃ records tr₀ t', (⟨some [noAttribRecord]⟩ : SQSEvent).Records = some records ∧
        processRecords cleanEnv 0 records =
          (.error (⟨handlerErrorMsg cleanEnv, JobError.missingAttributes⟩ :
              WrappedError).cause, tr₀, t')) ∧
    (processRecord cleanEnv 0 noAttribRecord = (.error .missingAttributes, [], 0) ∧
      flushedMetrics ([] : List Event) = []) :=
  ⟨rfl,
   fatal_error_single_capture.1 cleanEnv 0 ⟨some [noAttribRecord]⟩
     ⟨handlerErrorMsg cleanEnv, .missingAttributes⟩
     [.captureError (handlerErrorMsg cleanEnv)] rfl,
   ⟨rfl, fatal_error_single_capture.2 cleanEnv 0 noAttribRecord .missingAttributes [] 0 rfl⟩⟩

/-- Witness for C5 at a concrete successfully processed record. -/
theorem success_metrics_witness :
    (processRecord cleanEnv 0 successRecord = (.ok (), successTrace, 9)) ∧
    (successRecord.messageAttributes = some
      { cxId := some "cx", patientId := some "pat", startedAt := some "2024-01-01T00:00:00Z" }) ∧
    (∃ m, flushedMetrics successTrace = [m] ∧
      m.download.isSome = true ∧
      m.upsert = some ⟨cleanEnv.clock (0 + 5) - cleanEnv.clock (0 + 3), cleanEnv.clock (0 + 6)⟩ ∧
      (∃ c, m.errorCount = some c ∧ c.count = countSubmits successTrace) ∧
      m.job.isSome = jsTruthyStr (MessageAttributes.startedAt
        { cxId := some "cx", patientId := some "pat",
          startedAt := some "2024-01-01T00:00:00Z" })) :=
  ⟨processRecord_successRecord, rfl,
   success_metrics cleanEnv 0 successRecord _ successTrace 9 processRecord_successRecord rfl⟩

/-- Witness for C8 at a concrete invocation carrying two records. -/
theorem multi_record_notification_witness :
    (1 < ([noAttribRecord, noAttribRecord] : List SqsRecord).length) ∧
    (processRecords cleanEnv 0 [noAttribRecord, noAttribRecord] =
      (.error .missingAttributes, [], 0)) ∧
    ((handler cleanEnv 0 ⟨some [noAttribRecord, noAttribRecord]⟩).2.countP
        isCaptureMessageEvent = 1 ∧
      (∀ u, (Except.error JobError.missingAttributes : Except JobError Unit) = .ok u →
        handler cleanEnv 0 ⟨some [noAttribRecord, noAttribRecord]⟩ =
          (.ok (), .captureMessage gotMoreThanOneMsg :: [])) ∧
      (∀ e, (Except.error JobError.missingAttributes : Except JobError Unit) = .error e →
        handler cleanEnv 0 ⟨some [noAttribRecord, noAttribRecord]⟩ =
          (.error ⟨handlerErrorMsg cleanEnv, e⟩,
           .captureMessage gotMoreThanOneMsg ::
             ([] ++ [.captureError (handlerErrorMsg cleanEnv)])))) :=
  ⟨by decide, rfl,
   multi_record_notification cleanEnv 0 [noAttribRecord, noAttribRecord]
     (.error .missingAttributes) [] 0 (by decide) rfl⟩

/-- Witness for C9 at a concrete successfully processed record. -/
theorem single_fetch_single_parse_same_bundle_witness :
    (processRecord cleanEnv 0 successRecord = (.ok (), successTrace, 9)) ∧
    (successTrace.countP isFetchEvent ≤ 1 ∧ successTrace.countP isParseEvent ≤ 1 ∧
      (0 < countSubmits successTrace →
        ∃ b k pid payloadRaw payload rest,
          cleanEnv.s3Get b k = .ok payloadRaw ∧
          cleanEnv.parseRawBundleForFhirServer payloadRaw pid = .ok payload ∧
          successTrace = .s3Fetch b k :: .parseBundle pid :: rest ∧
          rest.countP isFetchEvent = 0 ∧ rest.countP isParseEvent = 0 ∧
          (∀ ev ∈ rest, isSubmitEvent ev = true → ev = .submitBatch payload))) :=
  ⟨processRecord_successRecord,
   single_fetch_single_parse_same_bundle cleanEnv 0 successRecord (.ok ()) successTrace 9
     processRecord_successRecord⟩

/-- Claim C6 (amended): `parseBody` succeeds exactly on a non-empty string body that
parses to a value whose `s3BucketName` and `s3FileName` properties are
NON-EMPTY strings, returning precisely those two values; every other body
(non-string, invalid JSON, missing field, non-string field, or empty-string
field) makes it throw. -/
theorem parseBody_roundtrip (body : JsValue) (jsonParse : String → Except String JsValue)
    (b f : String) :
    parseBody body jsonParse = .ok ⟨b, f⟩ ↔
    ∃ s j, body = .vStr s ∧ s ≠ "" ∧ jsonParse s = .ok j ∧
      jsGetField j "s3BucketName" = .ok (.vStr b) ∧ b ≠ "" ∧
      jsGetField j "s3FileName" = .ok (.vStr f) ∧ f ≠ "" := by
  constructor
  · intro h
    cases body with
    | vStr s =>
      simp only [parseBody] at h
      by_cases hs : s = ""
      · rw [if_pos hs] at h
        exact absurd h (by simp)
      · rw [if_neg hs] at h
        cases hjp : jsonParse s with
        | error e => simp [hjp] at h
        | ok j =>
          simp only [hjp] at h
          cases hb : jsGetField j "s3BucketName" with
          | error e => simp [hb] at h
          | ok v =>
            simp only [hb] at h
            by_cases hv : jsTruthy v = false
            · rw [if_pos hv] at h
              exact absurd h (by simp)
            · rw [if_neg hv] at h
              cases v with
              | vStr bs =>
                cases hf : jsGetField j "s3FileName" with
                | error e => simp [hf] at h
                | ok w =>
                  simp only [hf] at h
                  by_cases hw : jsTruthy w = false
                  · rw [if_pos hw] at h
                    exact absurd h (by simp)
                  · rw [if_neg hw] at h
                    cases w with
                    | vStr fs =>
                      have heq := Except.ok.inj h
                      obtain ⟨rfl, rfl⟩ : bs = b ∧ fs = f :=
                        ⟨congrArg EventBody.s3BucketName heq,
                         congrArg EventBody.s3FileName heq⟩
                      refine ⟨s, j, rfl, hs, hjp, hb, ?_, hf, ?_⟩
                      · simpa [jsTruthy] using hv
                      · simpa [jsTruthy] using hw
                    | vNull => simp at h
                    | vUndefined => simp at h
                    | vBool bb => simp at h
                    | vNum nn => simp at h
                    | vArr aa => simp at h
                    | vObj oo => simp at h
              | vNull => simp at h
              | vUndefined => simp at h
              | vBool bb => simp at h
              | vNum nn => simp at h
              | vArr aa => simp at h
              | vObj oo => simp at h
    | vNull => exact absurd h (by simp [parseBody])
    | vUndefined => exact absurd h (by simp [parseBody])
    | vBool bb => exact absurd h (by simp [parseBody])
    | vNum nn => exact absurd h (by simp [parseBody])
    | vArr aa => exact absurd h (by simp [parseBody])
    | vObj oo => exact absurd h (by simp [parseBody])
  · rintro ⟨s, j, rfl, hs, hjp, hb, hbne, hf, hfne⟩
    show ((if s = "" then Except.error "Invalid body"
          else match jsonParse s with
            | Except.error e => Except.error e
            | Except.ok bodyAsJson =>
              match jsGetField bodyAsJson "s3BucketName" with
              | Except.error e => Except.error e
              | Except.ok s3BucketNameRaw =>
                if jsTruthy s3BucketNameRaw = false then Except.error "Missing s3BucketName"
                else
                  match s3BucketNameRaw with
                  | JsValue.vStr s3BucketName =>
                    match jsGetField bodyAsJson "s3FileName" with
                    | Except.error e => Except.error e
                    | Except.ok s3FileNameRaw =>
                      if jsTruthy s3FileNameRaw = false then Except.error "Missing s3FileName"
                      else
                        match s3FileNameRaw with
                        | JsValue.vStr s3FileName =>
                          Except.ok { s3BucketName := s3BucketName, s3FileName := s3FileName }
                        | _ => Except.error "Invalid s3FileName"
                  | _ => Except.error "Invalid s3BucketName" : Except String EventBody)) =
          Except.ok { s3BucketName := b, s3FileName := f }
    rw [if_neg hs, hjp]
    try simp only []
    rw [hb]
    try simp only []
    rw [if_neg (by simp [jsTruthy, hbne] : ¬ jsTruthy (JsValue.vStr b) = false)]
    try simp only []
    rw [hf]
    try simp only []
    rw [if_neg (by simp [jsTruthy, hfne] : ¬ jsTruthy (JsValue.vStr f) = false)]

/-- Claim C6 counterexample: the claim as stated is false on the code: a valid JSON
object body whose `s3BucketName` is the (string-valued) empty string is
rejected with `Missing s3BucketName` instead of being returned. -/
theorem parseBody_rejects_empty_string_field :
    ¬ (∀ (jsonParse : String → Except String JsValue) (s : String)
         (fields : List (String × JsValue)) (b f : String),
        jsonParse s = .ok (.vObj fields) →
        fields.lookup "s3BucketName" = some (.vStr b) →
        fields.lookup "s3FileName" = some (.vStr f) →
        parseBody (.vStr s) jsonParse = .ok ⟨b, f⟩) := by
  intro hcl
  have h := hcl
    (fun _ => .ok (.vObj [("s3BucketName", .vStr ""), ("s3FileName", .vStr "ff")]))
    "body" [("s3BucketName", .vStr ""), ("s3FileName", .vStr "ff")] "" "ff" rfl rfl rfl
  exact absurd h (by simp [parseBody, jsGetField, jsTruthy, List.lookup])

end SqsToFhir
